import Mathlib

/-!
Verification development for the danube-connectors repository.

The repository contains five streaming connectors (three sinks: Delta Lake,
Qdrant, SurrealDB; two sources: MQTT, webhook).  This file gives a shallow
embedding of the data model and the operations the checked claims are about,
translated from the Rust sources, together with theorems settling each claim.

External library calls (the Qdrant/Delta/SurrealDB clients, the SHA-256
implementation of the `sha2` crate, `serde_json` parsing of raw bytes and
`chrono` RFC-3339 parsing) are modelled as explicit function parameters; the
code of this repository that surrounds them is embedded faithfully.
-/

namespace DanubeConnectors

/-! ## JSON value model (serde_json::Value)

JSON numbers in `serde_json` are stored as `i64` / `u64` / `f64`.  Integral
numbers are modelled as an `Int`; non-integral numbers are modelled by the
opaque constructor `JNum.float` (no checked claim depends on a float's value,
only on a number being non-integral). -/

inductive JNum where
  | int (i : Int)
  | float
deriving DecidableEq, Repr

/-- Model of `serde_json::Value`.  Objects are association lists with the
first binding of a key authoritative (serde maps have unique keys). -/
inductive Json where
  | null
  | bool (b : Bool)
  | num (n : JNum)
  | str (s : String)
  | arr (xs : List Json)
  | obj (fields : List (String × Json))

namespace Json

/-- `map.get(name)` on a JSON object. -/
def getField (j : Json) (name : String) : Option Json :=
  match j with
  | .obj fields => (fields.find? (fun kv => kv.1 = name)).map (·.2)
  | _ => none

/-- `Value::as_i64`: integral numbers representable in `i64`. -/
def asI64 (j : Json) : Option Int :=
  match j with
  | .num (.int i) => if -(2 ^ 63) ≤ i ∧ i < 2 ^ 63 then some i else none
  | _ => none

/-- `Value::as_u64`: integral numbers representable in `u64`. -/
def asU64 (j : Json) : Option Nat :=
  match j with
  | .num (.int i) => if 0 ≤ i ∧ i < 2 ^ 64 then some i.toNat else none
  | _ => none

/-- `Value::as_str`. -/
def asStr (j : Json) : Option String :=
  match j with
  | .str s => some s
  | _ => none

/-- `Value::as_bool`. -/
def asBool (j : Json) : Option Bool :=
  match j with
  | .bool b => some b
  | _ => none

end Json

/-! ## MQTT wildcard matcher (source-mqtt/src/connector.rs)

`MqttSourceConnector::topic_matches` splits pattern and topic on `/` and
delegates to the recursive `match_parts`. -/

/-- `str::split(sep)` of Rust: splitting an empty string yields one empty
segment, and separators at the ends yield empty segments. -/
def splitCharAux (sep : Char) : List Char → List Char → List String
  | [], acc => [String.mk acc.reverse]
  | c :: rest, acc =>
    if c = sep then String.mk acc.reverse :: splitCharAux sep rest []
    else splitCharAux sep rest (c :: acc)

def splitChar (sep : Char) (s : String) : List String :=
  splitCharAux sep s.data []

def splitSlash (s : String) : List String :=
  splitChar '/' s

/-- `MqttSourceConnector::match_parts`, translated clause for clause:
both lists empty succeeds; exactly one empty fails; a `#` head succeeds
against a non-empty topic; a `+` head consumes one segment; any other head
must match the topic segment literally. -/
def matchParts : List String → List String → Bool
  | [], [] => true
  | [], _ :: _ => false
  | _ :: _, [] => false
  | p :: ps, _t :: ts =>
    if p = "#" then true
    else if p = "+" then matchParts ps ts
    else if p = _t then matchParts ps ts
    else false

/-- `MqttSourceConnector::topic_matches`. -/
def topicMatches (pattern topic : String) : Bool :=
  matchParts (splitSlash pattern) (splitSlash topic)

example : splitSlash "sensors/temp/data" = ["sensors", "temp", "data"] := by decide
example : splitSlash "sensors" = ["sensors"] := by decide
example : topicMatches "sensors/+/data" "sensors/temp/data" = true := by decide
example : topicMatches "sensors/#" "sensors/temp/data" = true := by decide

/-- C5 counterexample: the claim states that a terminal `#` matches zero or
more trailing segments, so that pattern `sensors/#` matches the bare topic
`sensors`.  The matcher of the source refuses this: once the topic segments
are exhausted while the pattern still holds `#`, `match_parts` returns false,
so `sensors/#` does not match `sensors`. -/
theorem mqtt_hash_zero_segments_counterexample :
    topicMatches "sensors/#" "sensors" = false
    ∧ splitSlash "sensors/#" = ["sensors", "#"]
    ∧ splitSlash "sensors" = ["sensors"] := by decide

/-- C5 (amended): the broker-source wildcard matcher works segment by
segment; `+` consumes exactly one segment; a `#` segment (terminal or not)
matches one or more remaining topic segments — not zero: `sensors/#` matches
`sensors/temp/data` but does not match the bare topic `sensors`. -/
theorem mqtt_wildcard_semantics :
    (matchParts [] [] = true)
    ∧ (∀ p ps, matchParts (p :: ps) [] = false)
    ∧ (∀ t ts, matchParts [] (t :: ts) = false)
    ∧ (∀ ps t ts, matchParts ("#" :: ps) (t :: ts) = true)
    ∧ (∀ ps t ts, matchParts ("+" :: ps) (t :: ts) = matchParts ps ts)
    ∧ (∀ p ps t ts, p ≠ "#" → p ≠ "+" →
        matchParts (p :: ps) (t :: ts) = if p = t then matchParts ps ts else false)
    ∧ topicMatches "sensors/#" "sensors/temp/data" = true
    ∧ topicMatches "sensors/#" "sensors" = false := by
  refine ⟨rfl, fun p ps => rfl, fun t ts => rfl, fun ps t ts => by simp [matchParts],
    fun ps t ts => by simp [matchParts], fun p ps t ts hh hp => ?_, by decide, by decide⟩
  simp [matchParts, hh, hp]

/-- Witness for the amended C5 theorem: the literal-segment clause applied at
a concrete pattern and topic. -/
theorem mqtt_wildcard_semantics_witness :
    matchParts ["a"] ["a"] = if ("a" : String) = "a" then matchParts [] [] else false :=
  mqtt_wildcard_semantics.2.2.2.2.2.1 "a" [] "a" [] (by decide) (by decide)

/-! ## In-flight records

`SinkRecord` of `danube-connect-core` as the sinks consume it: the payload
arrives as an already-deserialized `serde_json::Value`. -/

structure SinkRecord where
  topic : String
  offset : Nat
  publishTime : Nat
  producerName : String
  attributes : List (String × String)
  partition : Option String
  payload : Json

/-! ## Qdrant point identity (sink-qdrant/src/transform.rs) -/

/-- `str::parse::<u64>()`: an optional leading `+`, then one or more ASCII
digits, value range checked against `u64::MAX`. -/
def parseU64 (s : String) : Option Nat :=
  let ds := match s.data with
    | '+' :: rest => rest
    | cs => cs
  if ds = [] then none
  else if ds.all Char.isDigit then
    let v := ds.foldl (fun a c => a * 10 + (c.toNat - 48)) 0
    if v < 2 ^ 64 then some v else none
  else none

example : parseU64 "42" = some 42 := by decide
example : parseU64 "+42" = some 42 := by decide
example : parseU64 "18446744073709551616" = none := by decide
example : parseU64 "doc-1" = none := by decide
example : parseU64 "" = none := by decide

/-- `u64::from_be_bytes(result[0..8])`: the first 8 bytes of a digest read
as a big-endian 64-bit integer. -/
def u64FromBeBytes (bs : List Nat) : Nat :=
  (bs.take 8).foldl (fun a b => a * 256 + b) 0

/-- `hash_string_to_u64`: SHA-256 (external `sha2` crate, taken as a
parameter) truncated to its first 8 bytes, big-endian. -/
def hashStringToU64 (sha256 : String → List Nat) (s : String) : Nat :=
  u64FromBeBytes (sha256 s)

/-- `VectorMessage`: the payload format the Qdrant sink expects. -/
structure VectorMessage where
  id : Option String
  vector : List JNum
  payload : Option Json

/-- Field lookup on the binding list of a JSON object. -/
def objGet (fields : List (String × Json)) (name : String) : Option Json :=
  (fields.find? (fun kv => kv.1 = name)).map (fun kv => kv.2)

/-- serde deserialization of `VectorMessage` from a `serde_json::Value`:
the value must be an object; `id` is an optional string (missing or null
gives `None`); `vector` must be an array of numbers (each deserializes to an
`f32`, modelled by its `JNum`); `payload` is an optional arbitrary value;
unknown fields are ignored. -/
def parseVectorMessage (j : Json) : Option VectorMessage :=
  match j with
  | .obj fields =>
    let idOk : Option (Option String) :=
      match objGet fields "id" with
      | none => some none
      | some Json.null => some none
      | some (Json.str s) => some (some s)
      | some _ => none
    let vecOk : Option (List JNum) :=
      match objGet fields "vector" with
      | some (Json.arr xs) =>
        xs.mapM (fun x => match x with | Json.num n => some n | _ => none)
      | _ => none
    let payloadOk : Option Json :=
      match objGet fields "payload" with
      | none => none
      | some Json.null => none
      | some v => some v
    match idOk, vecOk with
    | some i, some v => some ⟨i, v, payloadOk⟩
    | _, _ => none
  | _ => none

/-- `generate_point_id` (sink-qdrant/src/transform.rs): explicit `id` parsed
as `u64` when possible, else the truncated hash of the `id` string, else the
truncated hash of `topic ++ ":" ++ offset`. -/
def generatePointId (sha256 : String → List Nat) (msg : VectorMessage)
    (record : SinkRecord) : Nat :=
  match msg.id with
  | some id =>
    match parseU64 id with
    | some n => n
    | none => hashStringToU64 sha256 id
  | none => hashStringToU64 sha256 (record.topic ++ ":" ++ toString record.offset)

/-- Point identity as the spec words it: the explicit `id` field when it
parses as an unsigned 64-bit integer; otherwise a 64-bit truncation of a
cryptographic hash over the `id` string; otherwise a hash over
`topic || ":" || offset`. -/
def pointIdSpec (sha256 : String → List Nat) (msg : VectorMessage)
    (record : SinkRecord) : Nat :=
  match msg.id with
  | some id => (parseU64 id).getD (hashStringToU64 sha256 id)
  | none => hashStringToU64 sha256 (record.topic ++ ":" ++ toString record.offset)

lemma foldl_base256_lt (l : List Nat) (h : ∀ b ∈ l, b < 256) (a : Nat) :
    l.foldl (fun x b => x * 256 + b) a < (a + 1) * 256 ^ l.length := by
  induction l generalizing a with
  | nil => simp
  | cons b bs ih =>
    have hb : b < 256 := h b (by simp)
    have hrest : ∀ x ∈ bs, x < 256 := fun x hx => h x (by simp [hx])
    calc (b :: bs).foldl (fun x c => x * 256 + c) a
        = bs.foldl (fun x c => x * 256 + c) (a * 256 + b) := by simp [List.foldl]
      _ < (a * 256 + b + 1) * 256 ^ bs.length := ih hrest (a * 256 + b)
      _ ≤ (a + 1) * 256 ^ (b :: bs).length := by
          simp only [List.length_cons, pow_succ]
          have : a * 256 + b + 1 ≤ (a + 1) * 256 := by omega
          calc (a * 256 + b + 1) * 256 ^ bs.length
              ≤ ((a + 1) * 256) * 256 ^ bs.length :=
                Nat.mul_le_mul_right _ this
            _ = (a + 1) * (256 ^ bs.length * 256) := by ring

/-! ## Connector error taxonomy (danube-connect-core) -/

inductive ConnError where
  | config (msg : String)
  | invalidData (msg : String)
  | retryable (msg : String)
  | fatal (msg : String)
deriving DecidableEq, Repr

/-! ## Qdrant payload values (qdrant_client::qdrant::Value)

Floats are abstracted by the payload-free `double` constructor: no checked
claim depends on a float's value. -/

inductive QValue where
  | str (s : String)
  | int (i : Int)
  | double
  | bool (b : Bool)
  | list (vs : List QValue)

/-- `HashMap::insert`: overwrite the binding of `k` when present, otherwise
add it.  The hash map itself is unordered; the association list keeps the
insertion order as a harmless artifact. -/
def qinsert (m : List (String × QValue)) (k : String) (v : QValue) :
    List (String × QValue) :=
  if m.any (fun kv => kv.1 = k) then
    m.map (fun kv => if kv.1 = k then (k, v) else kv)
  else m ++ [(k, v)]

/-- `Value::from` on a JSON number: `as_i64` first, then `as_f64`
(which always succeeds on a serde number). -/
def qnumValue (n : JNum) : QValue :=
  match n with
  | .int i => if -(2 ^ 63) ≤ i ∧ i < 2 ^ 63 then .int i else .double
  | .float => .double

/-- Scalar conversion used for array elements in `add_json_to_payload`:
strings, numbers and booleans are kept, everything else is dropped. -/
def qScalar (item : Json) : Option QValue :=
  match item with
  | Json.str s => some (QValue.str s)
  | Json.num n => some (qnumValue n)
  | Json.bool b => some (QValue.bool b)
  | _ => none

mutual

/-- `add_json_to_payload`: flatten a JSON value into the point payload,
dot-joining nested object keys, keeping scalar arrays as list values and
eliding nulls. -/
def addJsonToPayload (payload : List (String × QValue)) (pre : String) :
    Json → List (String × QValue)
  | .null => payload
  | .bool b => qinsert payload pre (.bool b)
  | .num n => qinsert payload pre (qnumValue n)
  | .str s => qinsert payload pre (.str s)
  | .arr xs =>
    let listValues := xs.filterMap qScalar
    if listValues.isEmpty then payload else qinsert payload pre (.list listValues)
  | .obj fields => addFieldsToPayload payload pre fields

/-- The object clause of `add_json_to_payload`: recurse into each field with
the dot-extended prefix. -/
def addFieldsToPayload (payload : List (String × QValue)) (pre : String) :
    List (String × Json) → List (String × QValue)
  | [] => payload
  | (k, v) :: rest =>
    let newPre := if pre = "" then k else pre ++ "." ++ k
    addFieldsToPayload (addJsonToPayload payload newPre v) pre rest

end

/-- `build_payload`: user payload flattened in, then the reserved
`_danube_*` metadata keys when enabled. -/
def buildPayload (messagePayload : Option Json) (record : SinkRecord)
    (includeDanubeMetadata : Bool) : List (String × QValue) :=
  let payload : List (String × QValue) := []
  let payload := match messagePayload with
    | some jsonPayload => addJsonToPayload payload "" jsonPayload
    | none => payload
  if includeDanubeMetadata then
    let payload := qinsert payload "_danube_topic" (.str record.topic)
    let payload := qinsert payload "_danube_offset" (.int record.offset)
    let payload := qinsert payload "_danube_timestamp" (.int record.publishTime)
    let payload := qinsert payload "_danube_producer" (.str record.producerName)
    record.attributes.foldl
      (fun acc kv => qinsert acc ("_danube_attr_" ++ kv.1) (.str kv.2)) payload
  else payload

/-- `qdrant_client::qdrant::PointStruct` as built by the transformer. -/
structure QdrantPoint where
  id : Nat
  vector : List JNum
  payload : List (String × QValue)

/-- `transform_to_point` (sink-qdrant/src/transform.rs): deserialize the
typed payload, validate the vector dimension, generate the point id and
build the payload. -/
def transformToPoint (sha256 : String → List Nat) (record : SinkRecord)
    (expectedDimension : Nat) (includeDanubeMetadata : Bool) :
    Except ConnError QdrantPoint :=
  match parseVectorMessage record.payload with
  | none => .error (.invalidData "Failed to deserialize message")
  | some message =>
    if message.vector.length ≠ expectedDimension then
      .error (.invalidData ("Vector dimension mismatch: expected " ++
        toString expectedDimension ++ ", got " ++ toString message.vector.length))
    else
      .ok { id := generatePointId sha256 message record
            vector := message.vector
            payload := buildPayload message.payload record includeDanubeMetadata }

/-! ## Qdrant connector state machine (sink-qdrant/src/connector.rs)

The connector keys one `CollectionContext` per topic; the claims are
per-mapping, so the embedding works on a single context (the record is
assumed routed to it, as `process` does via the `collections` map on an
initialized connector).  The Qdrant client's `upsert_points` call is an
external effect, taken as a parameter; `Instant` values are milliseconds. -/

structure QdrantMapping where
  topic : String
  collectionName : String
  vectorDimension : Nat
  includeDanubeMetadata : Bool

structure CollectionContext where
  mapping : QdrantMapping
  batchBuffer : List QdrantPoint
  lastFlushMs : Nat
  effectiveBatchSize : Nat
  effectiveBatchTimeoutMs : Nat
  pointsInserted : Nat
  batchesFlushed : Nat

/-- `CollectionContext::should_flush`: empty buffers never flush; a full
buffer always flushes; otherwise flush when the timeout has elapsed. -/
def CollectionContext.shouldFlush (ctx : CollectionContext) (nowMs : Nat) : Bool :=
  if ctx.batchBuffer.isEmpty then false
  else if ctx.batchBuffer.length ≥ ctx.effectiveBatchSize then true
  else nowMs - ctx.lastFlushMs ≥ ctx.effectiveBatchTimeoutMs

/-- `QdrantSinkConnector::flush_batch` for one context: the buffer is moved
out with `std::mem::take`, then upserted; any upsert error is classified
retryable and returned with the buffer left empty; success updates the
counters and the flush instant. -/
def flushBatch (upsert : List QdrantPoint → Except String Unit) (nowMs : Nat)
    (ctx : CollectionContext) : Except ConnError Unit × CollectionContext :=
  if ctx.batchBuffer.isEmpty then (.ok (), ctx)
  else
    let pointsToInsert := ctx.batchBuffer
    let count := pointsToInsert.length
    let taken := { ctx with batchBuffer := [] }
    match upsert pointsToInsert with
    | .error e =>
      (.error (.retryable ("Failed to upsert points to Qdrant: " ++ e)), taken)
    | .ok () =>
      (.ok (), { taken with
        pointsInserted := taken.pointsInserted + count
        batchesFlushed := taken.batchesFlushed + 1
        lastFlushMs := nowMs })

/-- `QdrantSinkConnector::process` for one context: transform, push into the
batch buffer, flush when `should_flush` says so. -/
def processQ (sha256 : String → List Nat)
    (upsert : List QdrantPoint → Except String Unit) (nowMs : Nat)
    (ctx : CollectionContext) (record : SinkRecord) :
    Except ConnError Unit × CollectionContext :=
  match transformToPoint sha256 record ctx.mapping.vectorDimension
      ctx.mapping.includeDanubeMetadata with
  | .error e => (.error e, ctx)
  | .ok point =>
    let pushed := { ctx with batchBuffer := ctx.batchBuffer ++ [point] }
    if pushed.shouldFlush nowMs then flushBatch upsert nowMs pushed
    else (.ok (), pushed)

/-- C9: the Qdrant point identity follows the spec's priority — the explicit
`id` when it parses as a `u64`; else the first 8 bytes (big-endian) of the
SHA-256 digest of the `id` string; else that hash over
`topic ++ ":" ++ offset`.  The second conjunct checks that the 8-byte
big-endian truncation indeed lands in the `u64` range. -/
theorem qdrant_point_identity_priority :
    (∀ (sha256 : String → List Nat) (msg : VectorMessage) (record : SinkRecord),
      generatePointId sha256 msg record = pointIdSpec sha256 msg record)
    ∧ (∀ (sha256 : String → List Nat) (s : String),
        (∀ b ∈ sha256 s, b < 256) → hashStringToU64 sha256 s < 2 ^ 64) := by
  constructor
  · intro sha256 msg record
    cases hid : msg.id with
    | none => simp [generatePointId, pointIdSpec, hid]
    | some id =>
      cases hp : parseU64 id with
      | none => simp [generatePointId, pointIdSpec, hid, hp]
      | some n => simp [generatePointId, pointIdSpec, hid, hp]
  · intro sha256 s h
    have hsub : ∀ b ∈ (sha256 s).take 8, b < 256 :=
      fun b hb => h b (List.take_subset _ _ hb)
    have hlen : ((sha256 s).take 8).length ≤ 8 := by
      simp [List.length_take]
    have hfold := foldl_base256_lt ((sha256 s).take 8) hsub 0
    have hpow : (256 : ℕ) ^ ((sha256 s).take 8).length ≤ 256 ^ 8 :=
      Nat.pow_le_pow_right (by norm_num) hlen
    have : hashStringToU64 sha256 s < 256 ^ 8 := by
      calc hashStringToU64 sha256 s
          < (0 + 1) * 256 ^ ((sha256 s).take 8).length := hfold
        _ ≤ 256 ^ 8 := by simpa using hpow
    calc hashStringToU64 sha256 s < 256 ^ 8 := this
      _ = 2 ^ 64 := by norm_num

/-- Witness for C9 at a concrete digest function, message and record. -/
theorem qdrant_point_identity_priority_witness :
    generatePointId (fun _ => List.replicate 32 7) ⟨some "doc-1", [], none⟩
        ⟨"/default/t", 5, 0, "prod", [], none, Json.null⟩
      = pointIdSpec (fun _ => List.replicate 32 7) ⟨some "doc-1", [], none⟩
        ⟨"/default/t", 5, 0, "prod", [], none, Json.null⟩
    ∧ hashStringToU64 (fun _ => List.replicate 32 7) "doc-1" < 2 ^ 64 :=
  ⟨qdrant_point_identity_priority.1 _ _ _,
   qdrant_point_identity_priority.2 _ "doc-1" (by
    intro b hb
    have := List.eq_of_mem_replicate hb
    omega)⟩

/-- C4: a record whose declared vector length differs from the mapping's
dimension is rejected with an invalid-data error at transform time, and
`process` leaves the context — in particular the batch buffer — untouched. -/
theorem qdrant_dimension_mismatch_rejected :
    ∀ (sha256 : String → List Nat) (upsert : List QdrantPoint → Except String Unit)
      (nowMs : Nat) (ctx : CollectionContext) (record : SinkRecord)
      (msg : VectorMessage),
      parseVectorMessage record.payload = some msg →
      msg.vector.length ≠ ctx.mapping.vectorDimension →
      transformToPoint sha256 record ctx.mapping.vectorDimension
          ctx.mapping.includeDanubeMetadata
        = .error (.invalidData ("Vector dimension mismatch: expected " ++
            toString ctx.mapping.vectorDimension ++ ", got " ++
            toString msg.vector.length))
      ∧ processQ sha256 upsert nowMs ctx record
        = (.error (.invalidData ("Vector dimension mismatch: expected " ++
            toString ctx.mapping.vectorDimension ++ ", got " ++
            toString msg.vector.length)), ctx) := by
  intro sha256 upsert nowMs ctx record msg hparse hdim
  have htr : transformToPoint sha256 record ctx.mapping.vectorDimension
      ctx.mapping.includeDanubeMetadata
      = .error (.invalidData ("Vector dimension mismatch: expected " ++
          toString ctx.mapping.vectorDimension ++ ", got " ++
          toString msg.vector.length)) := by
    simp [transformToPoint, hparse, hdim]
  exact ⟨htr, by simp [processQ, htr]⟩

/-- Witness for C4: a two-element vector against a dimension-3 mapping. -/
theorem qdrant_dimension_mismatch_rejected_witness :
    processQ (fun _ => List.replicate 32 0) (fun _ => .ok ()) 0
        { mapping := ⟨"/default/vec", "vec", 3, false⟩, batchBuffer := [],
          lastFlushMs := 0, effectiveBatchSize := 100,
          effectiveBatchTimeoutMs := 1000, pointsInserted := 0,
          batchesFlushed := 0 }
        ⟨"/default/vec", 42, 0, "prod", [], none,
          Json.obj [("vector", Json.arr [Json.num (JNum.int 0), Json.num (JNum.int 1)])]⟩
      = (.error (.invalidData ("Vector dimension mismatch: expected " ++
          toString 3 ++ ", got " ++ toString 2)),
        { mapping := ⟨"/default/vec", "vec", 3, false⟩, batchBuffer := [],
          lastFlushMs := 0, effectiveBatchSize := 100,
          effectiveBatchTimeoutMs := 1000, pointsInserted := 0,
          batchesFlushed := 0 }) :=
  (qdrant_dimension_mismatch_rejected (fun _ => List.replicate 32 0)
    (fun _ => .ok ()) 0
    { mapping := ⟨"/default/vec", "vec", 3, false⟩, batchBuffer := [],
      lastFlushMs := 0, effectiveBatchSize := 100,
      effectiveBatchTimeoutMs := 1000, pointsInserted := 0,
      batchesFlushed := 0 }
    ⟨"/default/vec", 42, 0, "prod", [], none,
      Json.obj [("vector", Json.arr [Json.num (JNum.int 0), Json.num (JNum.int 1)])]⟩
    ⟨none, [JNum.int 0, JNum.int 1], none⟩
    rfl (by decide)).2

/-! ## Delta Lake connector state machine (sink-deltalake/src/connector.rs)

Buffers and last-flush instants are `HashMap<String, _>` keyed by topic,
modelled as association lists.  `write_batch` (record-batch conversion plus
the Delta table write/commit/reload) is an external effect taken as a
parameter returning the connector-classified error. -/

/-- `HashMap::get`. -/
def alGet {α : Type} (m : List (String × α)) (k : String) : Option α :=
  (m.find? (fun kv => kv.1 = k)).map (fun kv => kv.2)

/-- `HashMap::insert` (overwrite or append). -/
def alInsert {α : Type} (m : List (String × α)) (k : String) (v : α) :
    List (String × α) :=
  if m.any (fun kv => kv.1 = k) then
    m.map (fun kv => if kv.1 = k then (k, v) else kv)
  else m ++ [(k, v)]

/-- `HashMap::remove`: the removed value (if any) and the remaining map. -/
def alRemove {α : Type} (m : List (String × α)) (k : String) :
    Option α × List (String × α) :=
  (alGet m k, m.filter (fun kv => ¬ kv.1 = k))

structure DeltaMapping where
  topic : String
  deltaTablePath : String
  batchSize : Option Nat
  flushIntervalMs : Option Nat

/-- `TopicMapping::effective_batch_size`. -/
def DeltaMapping.effectiveBatchSize (m : DeltaMapping) (global : Nat) : Nat :=
  m.batchSize.getD global

/-- `TopicMapping::effective_flush_interval_ms`. -/
def DeltaMapping.effectiveFlushIntervalMs (m : DeltaMapping) (global : Nat) : Nat :=
  m.flushIntervalMs.getD global

structure DeltaState where
  mappings : List DeltaMapping
  globalBatchSize : Nat
  globalFlushIntervalMs : Nat
  buffers : List (String × List SinkRecord)
  lastFlushTime : List (String × Nat)

/-- `DeltaLakeSinkConnector::flush_topic`: remove the topic's buffer, and if
it held records find the mapping and write the batch; the removed records
are never reinserted, also when the write fails; on success the last-flush
instant is updated. -/
def flushTopicD (writer : DeltaMapping → List SinkRecord → Except ConnError Unit)
    (nowMs : Nat) (st : DeltaState) (topic : String) :
    Except ConnError Unit × DeltaState :=
  match alRemove st.buffers topic with
  | (none, _) => (.ok (), st)
  | (some records, buffersRest) =>
    let removed := { st with buffers := buffersRest }
    if records.isEmpty then (.ok (), removed)
    else
      match st.mappings.find? (fun m => m.topic = topic) with
      | none => (.error (.fatal ("No mapping found for topic: " ++ topic)), removed)
      | some mapping =>
        match writer mapping records with
        | .error e => (.error e, removed)
        | .ok () =>
          (.ok (), { removed with
            lastFlushTime := alInsert removed.lastFlushTime topic nowMs })

/-- The buffering prefix of `DeltaLakeSinkConnector::process`: append the
record to its topic's buffer and initialize the last-flush instant on first
contact with the topic. -/
def pushRecordD (nowMs : Nat) (st : DeltaState) (record : SinkRecord) : DeltaState :=
  let topic := record.topic
  let buffer := (alGet st.buffers topic).getD []
  let st := { st with buffers := alInsert st.buffers topic (buffer ++ [record]) }
  { st with lastFlushTime :=
      alInsert st.lastFlushTime topic ((alGet st.lastFlushTime topic).getD nowMs) }

/-- The flush trigger computed at the end of `process`: batch size reached,
or buffer non-empty with the flush interval elapsed. -/
def deltaShouldFlush (st : DeltaState) (topic : String) (mapping : DeltaMapping)
    (nowMs : Nat) : Bool :=
  let bufLen := ((alGet st.buffers topic).getD []).length
  let lastFlush := (alGet st.lastFlushTime topic).getD nowMs
  decide (bufLen ≥ mapping.effectiveBatchSize st.globalBatchSize) ||
    (decide (bufLen ≠ 0) &&
      decide (nowMs - lastFlush ≥ mapping.effectiveFlushIntervalMs st.globalFlushIntervalMs))

/-- `DeltaLakeSinkConnector::process`: buffer the record, then flush when the
size threshold is reached or the flush interval has elapsed. -/
def processD (writer : DeltaMapping → List SinkRecord → Except ConnError Unit)
    (nowMs : Nat) (st : DeltaState) (record : SinkRecord) :
    Except ConnError Unit × DeltaState :=
  let topic := record.topic
  let st1 := pushRecordD nowMs st record
  match st1.mappings.find? (fun m => m.topic = topic) with
  | none => (.error (.fatal ("No mapping found for topic: " ++ topic)), st1)
  | some mapping =>
    if deltaShouldFlush st1 topic mapping nowMs then
      flushTopicD writer nowMs st1 topic
    else (.ok (), st1)

/-! ## Claim C1: what happens to a drained batch when the write fails -/

/-- A concrete vector record: `{id: "<n>", vector: [0]}`. -/
def c1Record (n : Nat) : SinkRecord :=
  { topic := "/default/vec", offset := n, publishTime := 0, producerName := "prod",
    attributes := [], partition := none,
    payload := Json.obj [("id", Json.str (toString n)),
                         ("vector", Json.arr [Json.num (JNum.int 0)])] }

/-- A dimension-1 mapping with effective batch size 2 and a large timeout. -/
def c1Ctx : CollectionContext :=
  { mapping := ⟨"/default/vec", "vec", 1, false⟩, batchBuffer := [],
    lastFlushMs := 0, effectiveBatchSize := 2, effectiveBatchTimeoutMs := 1000000,
    pointsInserted := 0, batchesFlushed := 0 }

/-- An upsert that always fails (a retryable destination error). -/
def failingUpsert : List QdrantPoint → Except String Unit :=
  fun _ => .error "connection refused"

/-- C1 counterexample: push r1 and r2 into a batch-size-2 mapping; the flush
triggered by r2 fails with a retryable error.  The claim expects the drained
batch [r1, r2] to be prepended back, so that after pushing r3 the buffer is
[r1, r2, r3].  The code leaves the buffer empty after the failure, so after
pushing r3 it holds only r3. -/
theorem qdrant_retry_requeue_counterexample :
    let sha : String → List Nat := fun _ => List.replicate 32 0
    let step1 := processQ sha failingUpsert 1 c1Ctx (c1Record 1)
    let step2 := processQ sha failingUpsert 1 step1.2 (c1Record 2)
    let step3 := processQ sha failingUpsert 1 step2.2 (c1Record 3)
    step2.1 = .error (.retryable "Failed to upsert points to Qdrant: connection refused")
    ∧ step2.2.batchBuffer = []
    ∧ step3.2.batchBuffer.map QdrantPoint.id = [3]
    ∧ [3] ≠ [1, 2, 3] := by
  exact ⟨rfl, rfl, rfl, by decide⟩

/-- C1 (amended): on a retryable write failure the drained batch is NOT
prepended back to the buffer.  The Qdrant flush returns the retryable error
with the buffer left empty; the Delta Lake flush returns the error with the
topic's buffer entry removed.  The error is propagated (the bus offsets stay
uncommitted), and a record pushed after the failure observes a buffer
holding only itself. -/
theorem flush_failure_drops_batch :
    (∀ (upsert : List QdrantPoint → Except String Unit) (nowMs : Nat)
       (ctx : CollectionContext) (e : String),
      ctx.batchBuffer ≠ [] →
      upsert ctx.batchBuffer = .error e →
      flushBatch upsert nowMs ctx
        = (.error (.retryable ("Failed to upsert points to Qdrant: " ++ e)),
           { ctx with batchBuffer := [] }))
    ∧ (∀ (writer : DeltaMapping → List SinkRecord → Except ConnError Unit)
         (nowMs : Nat) (st : DeltaState) (topic : String)
         (records : List SinkRecord) (mapping : DeltaMapping) (e : ConnError),
        alGet st.buffers topic = some records →
        records ≠ [] →
        st.mappings.find? (fun m => m.topic = topic) = some mapping →
        writer mapping records = .error e →
        flushTopicD writer nowMs st topic
          = (.error e,
             { st with buffers := st.buffers.filter (fun kv => ¬ kv.1 = topic) })) := by
  constructor
  · intro upsert nowMs ctx e hne hup
    simp [flushBatch, List.isEmpty_iff, hne, hup]
  · intro writer nowMs st topic records mapping e hget hne hfind hw
    simp [flushTopicD, alRemove, hget, List.isEmpty_iff, hne, hfind, hw]

/-- Witness for the amended C1 theorem at concrete failing writers. -/
theorem flush_failure_drops_batch_witness :
    flushBatch failingUpsert 9 { c1Ctx with batchBuffer := [⟨1, [JNum.int 0], []⟩] }
      = (.error (.retryable "Failed to upsert points to Qdrant: connection refused"),
         { c1Ctx with batchBuffer := [] })
    ∧ flushTopicD (fun _ _ => .error (.retryable "delta write failed")) 9
        { mappings := [⟨"/t", "s3://tbl", none, none⟩], globalBatchSize := 2,
          globalFlushIntervalMs := 1000, buffers := [("/t", [c1Record 1])],
          lastFlushTime := [("/t", 0)] } "/t"
      = (.error (.retryable "delta write failed"),
         { mappings := [⟨"/t", "s3://tbl", none, none⟩], globalBatchSize := 2,
           globalFlushIntervalMs := 1000,
           buffers := [("/t", [c1Record 1])].filter (fun kv => ¬ kv.1 = "/t"),
           lastFlushTime := [("/t", 0)] }) :=
  ⟨flush_failure_drops_batch.1 failingUpsert 9
    { c1Ctx with batchBuffer := [⟨1, [JNum.int 0], []⟩] } "connection refused"
    (List.cons_ne_nil _ _) rfl,
   flush_failure_drops_batch.2 (fun _ _ => .error (.retryable "delta write failed")) 9
    { mappings := [⟨"/t", "s3://tbl", none, none⟩], globalBatchSize := 2,
      globalFlushIntervalMs := 1000, buffers := [("/t", [c1Record 1])],
      lastFlushTime := [("/t", 0)] } "/t" [c1Record 1] ⟨"/t", "s3://tbl", none, none⟩
    (.retryable "delta write failed") rfl (List.cons_ne_nil _ _) rfl rfl⟩

/-- C3: when `process` returns for a record the transformer accepted, either
no flush was needed — the post-push buffer does not satisfy `should_flush`,
and in particular its length is strictly below the effective batch size — or
the flush was attempted during that call: the result of `process` is exactly
the result of the flush, success or propagated error.  Proved for the Qdrant
connector (first conjunct) and the Delta Lake connector (second). -/
theorem process_flush_invariant :
    (∀ (sha256 : String → List Nat) (upsert : List QdrantPoint → Except String Unit)
       (nowMs : Nat) (ctx : CollectionContext) (record : SinkRecord)
       (point : QdrantPoint),
      transformToPoint sha256 record ctx.mapping.vectorDimension
          ctx.mapping.includeDanubeMetadata = .ok point →
      (CollectionContext.shouldFlush
          { ctx with batchBuffer := ctx.batchBuffer ++ [point] } nowMs = false
        ∧ processQ sha256 upsert nowMs ctx record
            = (.ok (), { ctx with batchBuffer := ctx.batchBuffer ++ [point] })
        ∧ (ctx.batchBuffer ++ [point]).length < ctx.effectiveBatchSize)
      ∨ (CollectionContext.shouldFlush
          { ctx with batchBuffer := ctx.batchBuffer ++ [point] } nowMs = true
        ∧ processQ sha256 upsert nowMs ctx record
            = flushBatch upsert nowMs
                { ctx with batchBuffer := ctx.batchBuffer ++ [point] }))
    ∧ (∀ (writer : DeltaMapping → List SinkRecord → Except ConnError Unit)
         (nowMs : Nat) (st : DeltaState) (record : SinkRecord)
         (mapping : DeltaMapping),
        (pushRecordD nowMs st record).mappings.find?
            (fun m => m.topic = record.topic) = some mapping →
        (deltaShouldFlush (pushRecordD nowMs st record) record.topic mapping nowMs = false
          ∧ processD writer nowMs st record = (.ok (), pushRecordD nowMs st record)
          ∧ ((alGet (pushRecordD nowMs st record).buffers record.topic).getD []).length
              < mapping.effectiveBatchSize (pushRecordD nowMs st record).globalBatchSize)
        ∨ (deltaShouldFlush (pushRecordD nowMs st record) record.topic mapping nowMs = true
          ∧ processD writer nowMs st record
              = flushTopicD writer nowMs (pushRecordD nowMs st record) record.topic)) := by
  constructor
  · intro sha256 upsert nowMs ctx record point htr
    by_cases hsf : CollectionContext.shouldFlush
        { ctx with batchBuffer := ctx.batchBuffer ++ [point] } nowMs = true
    · right
      exact ⟨hsf, by simp [processQ, htr, hsf]⟩
    · left
      have hsf' : CollectionContext.shouldFlush
          { ctx with batchBuffer := ctx.batchBuffer ++ [point] } nowMs = false := by
        simpa using hsf
      refine ⟨hsf', by simp [processQ, htr, hsf'], ?_⟩
      unfold CollectionContext.shouldFlush at hsf'
      simp at hsf'
      simpa using hsf'.1
  · intro writer nowMs st record mapping hfind
    by_cases hsf : deltaShouldFlush (pushRecordD nowMs st record) record.topic
        mapping nowMs = true
    · right
      exact ⟨hsf, by simp [processD, hfind, hsf]⟩
    · left
      have hsf' : deltaShouldFlush (pushRecordD nowMs st record) record.topic
          mapping nowMs = false := by simpa using hsf
      refine ⟨hsf', by simp [processD, hfind, hsf'], ?_⟩
      unfold deltaShouldFlush at hsf'
      simp only [Bool.or_eq_false_iff, decide_eq_false_iff_not, not_le] at hsf'
      exact hsf'.1

/-- The point `{id: "1", vector: [0]}` transforms to. -/
def c3Point : QdrantPoint := ⟨1, [JNum.int 0], []⟩

/-- A Delta Lake state with one mapping, batch size 2 and empty buffers. -/
def c3DeltaSt : DeltaState :=
  { mappings := [⟨"/t", "s3://tbl", none, none⟩], globalBatchSize := 2,
    globalFlushIntervalMs := 1000, buffers := [], lastFlushTime := [] }

/-- A first record for the Delta Lake mapping's topic. -/
def c3DeltaRec : SinkRecord := ⟨"/t", 1, 0, "p", [], none, Json.null⟩

def c3DeltaMap : DeltaMapping := ⟨"/t", "s3://tbl", none, none⟩

/-- An always-succeeding Delta Lake batch writer. -/
def okDeltaWriter : DeltaMapping → List SinkRecord → Except ConnError Unit :=
  fun _ _ => .ok ()

/-- Witness for C3: the Qdrant clause at a record into an empty buffer of
batch size 2 (no flush needed), and the Delta Lake clause at a first record
for its topic. -/
theorem process_flush_invariant_witness :
    ((CollectionContext.shouldFlush
        { c1Ctx with batchBuffer := c1Ctx.batchBuffer ++ [c3Point] } 1 = false
      ∧ processQ (fun _ => List.replicate 32 0) failingUpsert 1 c1Ctx (c1Record 1)
          = (.ok (), { c1Ctx with batchBuffer := c1Ctx.batchBuffer ++ [c3Point] })
      ∧ (c1Ctx.batchBuffer ++ [c3Point]).length < c1Ctx.effectiveBatchSize)
    ∨ (CollectionContext.shouldFlush
        { c1Ctx with batchBuffer := c1Ctx.batchBuffer ++ [c3Point] } 1 = true
      ∧ processQ (fun _ => List.replicate 32 0) failingUpsert 1 c1Ctx (c1Record 1)
          = flushBatch failingUpsert 1
              { c1Ctx with batchBuffer := c1Ctx.batchBuffer ++ [c3Point] }))
    ∧ ((deltaShouldFlush (pushRecordD 5 c3DeltaSt c3DeltaRec) c3DeltaRec.topic
          c3DeltaMap 5 = false
        ∧ processD okDeltaWriter 5 c3DeltaSt c3DeltaRec
            = (.ok (), pushRecordD 5 c3DeltaSt c3DeltaRec)
        ∧ ((alGet (pushRecordD 5 c3DeltaSt c3DeltaRec).buffers c3DeltaRec.topic).getD
              []).length
            < c3DeltaMap.effectiveBatchSize
                (pushRecordD 5 c3DeltaSt c3DeltaRec).globalBatchSize)
      ∨ (deltaShouldFlush (pushRecordD 5 c3DeltaSt c3DeltaRec) c3DeltaRec.topic
          c3DeltaMap 5 = true
        ∧ processD okDeltaWriter 5 c3DeltaSt c3DeltaRec
            = flushTopicD okDeltaWriter 5 (pushRecordD 5 c3DeltaSt c3DeltaRec)
                c3DeltaRec.topic)) :=
  ⟨process_flush_invariant.1 (fun _ => List.replicate 32 0) failingUpsert 1 c1Ctx
    (c1Record 1) c3Point rfl,
   process_flush_invariant.2 okDeltaWriter 5 c3DeltaSt c3DeltaRec c3DeltaMap rfl⟩

/-! ## SurrealDB sink (sink-surrealdb/src/connector.rs)

`flush_table` drains the batch buffer and then runs one `CREATE ... CONTENT`
query per record.  The client call is an external effect taken as a
parameter; the destination's durable rows are threaded explicitly so that
atomicity can be stated. -/

structure SurrealRecord where
  id : Option String
  data : Json

structure TableContext where
  tableName : String
  batchBuffer : List SurrealRecord
  lastFlushMs : Nat
  batchSize : Nat
  flushIntervalMs : Nat
  recordsInserted : Nat
  batchesFlushed : Nat
  lastError : Option String

/-- `TableContext::should_flush`. -/
def TableContext.shouldFlush (ctx : TableContext) (nowMs : Nat) : Bool :=
  ctx.batchBuffer.length ≥ ctx.batchSize ||
    (!ctx.batchBuffer.isEmpty && decide (nowMs - ctx.lastFlushMs ≥ ctx.flushIntervalMs))

/-- The per-record insert loop of `flush_table`: each successful `CREATE`
makes its row durable at the destination; the loop stops at the first
failure, reporting the failing record's id (or `"auto"`) and the error. -/
def insertRecords (client : SurrealRecord → Except String Unit) :
    List SurrealRecord → List SurrealRecord →
    Option (String × String) × List SurrealRecord
  | dest, [] => (none, dest)
  | dest, r :: rest =>
    match client r with
    | .ok () => insertRecords client (dest ++ [r]) rest
    | .error e => (some (r.id.getD "auto", e), dest)

/-- `SurrealDBSinkConnector::flush_table` for one table context: drain the
buffer, insert record by record, classify the first failure retryable; on
full success update the counters, flush instant and clear `last_error`. -/
def flushTable (client : SurrealRecord → Except String Unit) (nowMs : Nat)
    (ctx : TableContext) (dest : List SurrealRecord) :
    Except ConnError Unit × TableContext × List SurrealRecord :=
  if ctx.batchBuffer.isEmpty then (.ok (), ctx, dest)
  else
    let records := ctx.batchBuffer
    let batchSize := records.length
    let drained := { ctx with batchBuffer := [] }
    match insertRecords client dest records with
    | (some (_, e), destAfter) =>
      (.error (.retryable ("Failed to insert record: " ++ e)),
       { drained with lastError := some ("Insert error: " ++ e) }, destAfter)
    | (none, destAfter) =>
      (.ok (),
       { drained with
         recordsInserted := drained.recordsInserted + batchSize
         batchesFlushed := drained.batchesFlushed + 1
         lastFlushMs := nowMs
         lastError := none }, destAfter)

lemma insertRecords_all_ok (client : SurrealRecord → Except String Unit)
    (l : List SurrealRecord) (h : ∀ r ∈ l, client r = .ok ()) :
    ∀ dest, insertRecords client dest l = (none, dest ++ l) := by
  induction l with
  | nil => intro dest; simp [insertRecords]
  | cons r rest ih =>
    intro dest
    have hr : client r = .ok () := h r (by simp)
    have hrest : ∀ x ∈ rest, client x = .ok () := fun x hx => h x (by simp [hx])
    simp [insertRecords, hr, ih hrest]

lemma insertRecords_first_failure (client : SurrealRecord → Except String Unit)
    (pre : List SurrealRecord) (r : SurrealRecord) (post : List SurrealRecord)
    (e : String) (hpre : ∀ p ∈ pre, client p = .ok ()) (hr : client r = .error e) :
    ∀ dest, insertRecords client dest (pre ++ r :: post)
      = (some (r.id.getD "auto", e), dest ++ pre) := by
  induction pre with
  | nil => intro dest; simp [insertRecords, hr]
  | cons p ps ih =>
    intro dest
    have hp : client p = .ok () := hpre p (by simp)
    have hps : ∀ x ∈ ps, client x = .ok () := fun x hx => hpre x (by simp [hx])
    simp [insertRecords, hp, ih hps, List.append_assoc]

/-- A client that accepts the row with id `"a"` and rejects everything
else. -/
def c2Client : SurrealRecord → Except String Unit :=
  fun r => if r.id = some "a" then .ok () else .error "db down"

/-- A two-record buffer the failing client splits in the middle. -/
def c2Ctx : TableContext :=
  { tableName := "events",
    batchBuffer := [⟨some "a", Json.null⟩, ⟨some "b", Json.null⟩],
    lastFlushMs := 0, batchSize := 2, flushIntervalMs := 1000,
    recordsInserted := 0, batchesFlushed := 0, lastError := none }

/-- C2 counterexample: flushing `[a, b]` against a destination that accepts
`a` and rejects `b` returns an error, yet the destination has durably gained
exactly the row `a` — a partial outcome, so the write is not atomic. -/
theorem surreal_write_not_atomic_counterexample :
    (flushTable c2Client 1 c2Ctx []).1
      = .error (.retryable "Failed to insert record: db down")
    ∧ (flushTable c2Client 1 c2Ctx []).2.2.map SurrealRecord.id = [some "a"]
    ∧ ([some "a"] : List (Option String)) ≠ []
    ∧ ([some "a"] : List (Option String)) ≠ [some "a", some "b"] := by
  exact ⟨rfl, rfl, by decide, by decide⟩

/-- C2 (amended): the document-DB writer inserts the drained batch one
record per `CREATE` query, so the write is atomic per record, not per
batch: if every insert succeeds the whole batch is acknowledged and all
rows are durable; if some insert fails, the rows before the first failing
record remain durably written while only a retryable error is returned (the
partiality is not reported, and the drained batch is not requeued). -/
theorem surreal_write_per_record :
    (∀ (client : SurrealRecord → Except String Unit) (nowMs : Nat)
       (ctx : TableContext) (dest : List SurrealRecord),
      ctx.batchBuffer ≠ [] →
      (∀ r ∈ ctx.batchBuffer, client r = .ok ()) →
      flushTable client nowMs ctx dest
        = (.ok (),
           { ctx with
             batchBuffer := []
             recordsInserted := ctx.recordsInserted + ctx.batchBuffer.length
             batchesFlushed := ctx.batchesFlushed + 1
             lastFlushMs := nowMs
             lastError := none },
           dest ++ ctx.batchBuffer))
    ∧ (∀ (client : SurrealRecord → Except String Unit) (nowMs : Nat)
         (ctx : TableContext) (dest pre post : List SurrealRecord)
         (r : SurrealRecord) (e : String),
        ctx.batchBuffer = pre ++ r :: post →
        (∀ p ∈ pre, client p = .ok ()) →
        client r = .error e →
        flushTable client nowMs ctx dest
          = (.error (.retryable ("Failed to insert record: " ++ e)),
             { ctx with
               batchBuffer := []
               lastError := some ("Insert error: " ++ e) },
             dest ++ pre)) := by
  constructor
  · intro client nowMs ctx dest hne hok
    simp [flushTable, List.isEmpty_iff, hne, insertRecords_all_ok client _ hok dest]
  · intro client nowMs ctx dest pre post r e hbuf hpre hr
    have hne : ctx.batchBuffer ≠ [] := by
      rw [hbuf]; exact List.append_ne_nil_of_right_ne_nil _ (List.cons_ne_nil _ _)
    rw [flushTable]
    simp only [List.isEmpty_iff, hne, if_false, hbuf,
      insertRecords_first_failure client pre r post e hpre hr dest]
    simp [List.isEmpty_iff, hne]

/-- Witness for the amended C2 theorem: a fully-successful flush and the
concrete mid-batch failure. -/
theorem surreal_write_per_record_witness :
    flushTable (fun _ => .ok ()) 7 c2Ctx []
      = (.ok (),
         { c2Ctx with
           batchBuffer := []
           recordsInserted := c2Ctx.recordsInserted + c2Ctx.batchBuffer.length
           batchesFlushed := c2Ctx.batchesFlushed + 1
           lastFlushMs := 7
           lastError := none },
         [] ++ c2Ctx.batchBuffer)
    ∧ flushTable c2Client 1 c2Ctx []
      = (.error (.retryable ("Failed to insert record: " ++ "db down")),
         { c2Ctx with
           batchBuffer := []
           lastError := some ("Insert error: " ++ "db down") },
         [] ++ [⟨some "a", Json.null⟩]) :=
  ⟨surreal_write_per_record.1 (fun _ => .ok ()) 7 c2Ctx []
    (List.cons_ne_nil _ _) (fun r _ => rfl),
   surreal_write_per_record.2 c2Client 1 c2Ctx [] [⟨some "a", Json.null⟩] []
    ⟨some "b", Json.null⟩ "db down" rfl
    (by
      intro p hp
      simp only [List.mem_singleton] at hp
      subst hp
      rfl)
    rfl⟩

/-! ## Source records and the canonical base64 envelope

`SourceRecord` of `danube-connect-core` as the sources build it; attribute
insertion is a map insert.  The base64 alphabet below is the standard one the
`base64` crate's `STANDARD` engine uses. -/

structure SourceRecord where
  topic : String
  payload : Json
  key : Option String
  attributes : List (String × String)

/-- `SourceRecord::with_attribute`. -/
def SourceRecord.withAttribute (r : SourceRecord) (k v : String) : SourceRecord :=
  { r with attributes := alInsert r.attributes k v }

/-- `SourceRecord::with_key`. -/
def SourceRecord.withKey (r : SourceRecord) (k : String) : SourceRecord :=
  { r with key := some k }

def base64Alphabet : List Char :=
  "ABCDEFGHIJKLMNOPQRSTUVWXYZabcdefghijklmnopqrstuvwxyz0123456789+/".data

def base64Char (n : Nat) : Char :=
  base64Alphabet.getD n 'A'

/-- Standard base64 with `=` padding, 3 input bytes per 4 output chars. -/
def base64EncodeAux : List Nat → List Char
  | [] => []
  | [a] => [base64Char (a / 4), base64Char (a % 4 * 16), '=', '=']
  | [a, b] =>
    [base64Char (a / 4), base64Char (a % 4 * 16 + b / 16),
     base64Char (b % 16 * 4), '=']
  | a :: b :: c :: rest =>
    base64Char (a / 4) :: base64Char (a % 4 * 16 + b / 16) ::
    base64Char (b % 16 * 4 + c / 64) :: base64Char (c % 64) ::
    base64EncodeAux rest

def base64Encode (bs : List Nat) : String :=
  String.mk (base64EncodeAux bs)

example : base64Encode [77, 97, 110] = "TWFu" := by decide
example : base64Encode [77, 97] = "TWE=" := by decide

/-- The canonical envelope `{data: <base64>, size: <int>, encoding:
"base64"}` wrapped around bytes that fail JSON decoding.  `serde_json`'s
parser is external and taken as the `tryParseJson` parameter. -/
def decodeOrEnvelope (tryParseJson : List Nat → Option Json)
    (payload : List Nat) : Json :=
  match tryParseJson payload with
  | some j => j
  | none =>
    Json.obj [("data", Json.str (base64Encode payload)),
              ("size", Json.num (JNum.int payload.length)),
              ("encoding", Json.str "base64")]

/-! ## Webhook HTTP source (source-webhook/src/server.rs, connector.rs)

`webhook_handler` runs after the auth and rate-limit middleware layers (so a
request reaching it has passed authentication).  The bounded tokio channel is
modelled explicitly: `send` on a channel with free capacity enqueues, on a
closed channel fails (the handler maps that to 500 Internal Server Error),
and on a full channel suspends until capacity frees — there is no immediate
error for a full queue, which the outcome `awaitingCapacity` records. -/

structure EndpointConfig where
  path : String
  danubeTopic : String

structure ChannelState where
  queue : List SourceRecord
  capacity : Nat
  closed : Bool

inductive HandlerOutcome where
  | response (status : Nat)
  | awaitingCapacity
deriving DecidableEq, Repr

/-- `extract_headers`: clone the header map with lowercased keys. -/
def extractHeaders (headers : List (String × String)) : List (String × String) :=
  headers.foldl (fun m kv => alInsert m kv.1.toLower kv.2) []

/-- `extract_client_ip`: first address of `X-Forwarded-For`, else
`X-Real-IP` (the header map's keys are lowercase). -/
def extractClientIp (headers : List (String × String)) : Option String :=
  match alGet headers "x-forwarded-for" with
  | some forwarded =>
    match (splitChar ',' forwarded).head? with
    | some ip => some ip.trim
    | none => none
  | none => alGet headers "x-real-ip"

/-- `WebhookConnector::create_source_record`: decode the body (JSON or
base64 envelope), then attach the webhook attributes; `webhook.timestamp` is
`Utc::now().to_rfc3339()`, an explicit wall-clock parameter here. -/
def createSourceRecord (tryParseJson : List Nat → Option Json)
    (endpointConfig : EndpointConfig) (connectorName endpointPath : String)
    (payload : List Nat) (headers : List (String × String))
    (clientIp : Option String) (nowRfc3339 : String) : SourceRecord :=
  let payloadValue := decodeOrEnvelope tryParseJson payload
  let record : SourceRecord :=
    { topic := endpointConfig.danubeTopic, payload := payloadValue,
      key := none, attributes := [] }
  let record := record.withAttribute "webhook.source" connectorName
  let record := record.withAttribute "webhook.endpoint" endpointPath
  let record := record.withAttribute "webhook.timestamp" nowRfc3339
  let record := match clientIp with
    | some ip => record.withAttribute "webhook.ip" ip
    | none => record
  let record := match alGet headers "user-agent" with
    | some userAgent => record.withAttribute "webhook.user_agent" userAgent
    | none => record
  match alGet headers "content-type" with
  | some contentType => record.withAttribute "webhook.content_type" contentType
  | none => record

/-- `webhook_handler`: 404 for an unconfigured path, 413 for an oversize
body, then build the record and send it into the channel — 500 when the
channel is closed, 200 on enqueue, suspension when the queue is full. -/
def webhookHandler (tryParseJson : List Nat → Option Json)
    (endpoints : List (String × EndpointConfig)) (connectorName : String)
    (maxBodySize : Nat) (chan : ChannelState) (path : String)
    (headers : List (String × String)) (body : List Nat)
    (nowRfc3339 : String) : HandlerOutcome × ChannelState :=
  let endpointPath := "/" ++ path
  match alGet endpoints endpointPath with
  | none => (.response 404, chan)
  | some endpointConfig =>
    let headerMap := extractHeaders headers
    let clientIp := extractClientIp headers
    if body.length > maxBodySize then (.response 413, chan)
    else
      let sourceRecord := createSourceRecord tryParseJson endpointConfig
        connectorName endpointPath body headerMap clientIp nowRfc3339
      if chan.closed then (.response 500, chan)
      else if chan.queue.length < chan.capacity then
        (.response 200, { chan with queue := chan.queue ++ [sourceRecord] })
      else (.awaitingCapacity, chan)

/-- One configured webhook path. -/
def c6Endpoints : List (String × EndpointConfig) :=
  [("/hook", ⟨"/hook", "/default/events"⟩)]

/-- A bounded channel already at capacity. -/
def c6FullChan : ChannelState :=
  { queue := [⟨"/default/events", Json.null, none, []⟩], capacity := 1,
    closed := false }

/-- C6 counterexample: a POST to a configured path with an in-bounds body
while the internal queue is full does not get a 503 — the handler's `send`
suspends awaiting channel capacity (bounded-channel backpressure), and no
code path of the handler produces 503. -/
theorem webhook_queue_full_counterexample :
    webhookHandler (fun _ => none) c6Endpoints "wh" 1024 c6FullChan "hook" []
        [123] "2024-01-01T00:00:00+00:00"
      = (.awaitingCapacity, c6FullChan)
    ∧ HandlerOutcome.awaitingCapacity ≠ .response 503 := by
  exact ⟨rfl, by decide⟩

/-- C6 (amended): accepted requests get 200 (and the record is enqueued),
oversize bodies 413, unconfigured paths 404 — but a full internal queue does
not produce 503: the handler suspends on the bounded channel's `send`
(backpressure), and only a closed channel yields an error response, 500.
No input at all makes the handler answer 503. -/
theorem webhook_handler_status :
    (∀ (parse : List Nat → Option Json) (eps : List (String × EndpointConfig))
       (name : String) (maxSz : Nat) (chan : ChannelState) (path : String)
       (headers : List (String × String)) (body : List Nat) (now : String),
      (webhookHandler parse eps name maxSz chan path headers body now).1
        ≠ .response 503)
    ∧ (∀ parse eps name maxSz chan path headers body now,
        alGet eps ("/" ++ path) = none →
        webhookHandler parse eps name maxSz chan path headers body now
          = (.response 404, chan))
    ∧ (∀ parse eps name maxSz chan path headers body now cfg,
        alGet eps ("/" ++ path) = some cfg →
        body.length > maxSz →
        webhookHandler parse eps name maxSz chan path headers body now
          = (.response 413, chan))
    ∧ (∀ parse eps name maxSz chan path headers body now cfg,
        alGet eps ("/" ++ path) = some cfg →
        ¬ body.length > maxSz →
        chan.closed = false →
        chan.queue.length < chan.capacity →
        webhookHandler parse eps name maxSz chan path headers body now
          = (.response 200,
             { chan with queue := chan.queue ++
                [createSourceRecord parse cfg name ("/" ++ path) body
                  (extractHeaders headers) (extractClientIp headers) now] }))
    ∧ (∀ parse eps name maxSz chan path headers body now cfg,
        alGet eps ("/" ++ path) = some cfg →
        ¬ body.length > maxSz →
        chan.closed = false →
        ¬ chan.queue.length < chan.capacity →
        webhookHandler parse eps name maxSz chan path headers body now
          = (.awaitingCapacity, chan))
    ∧ (∀ parse eps name maxSz chan path headers body now cfg,
        alGet eps ("/" ++ path) = some cfg →
        ¬ body.length > maxSz →
        chan.closed = true →
        webhookHandler parse eps name maxSz chan path headers body now
          = (.response 500, chan)) := by
  refine ⟨?_, ?_, ?_, ?_, ?_, ?_⟩
  · intro parse eps name maxSz chan path headers body now
    rcases halg : alGet eps ("/" ++ path) with _ | cfg
    · simp [webhookHandler, halg]
    · simp only [webhookHandler, halg]
      split_ifs <;> simp
  · intro parse eps name maxSz chan path headers body now halg
    simp [webhookHandler, halg]
  · intro parse eps name maxSz chan path headers body now cfg halg hbig
    simp [webhookHandler, halg, hbig]
  · intro parse eps name maxSz chan path headers body now cfg halg hfit hopen hroom
    simp [webhookHandler, halg, hfit, hopen, hroom]
  · intro parse eps name maxSz chan path headers body now cfg halg hfit hopen hfull
    simp [webhookHandler, halg, hfit, hopen, hfull]
  · intro parse eps name maxSz chan path headers body now cfg halg hfit hclosed
    simp [webhookHandler, halg, hfit, hclosed]

/-- Witness for the amended C6 theorem: the 404 clause at an unconfigured
path and the full-queue clause at the configured path. -/
theorem webhook_handler_status_witness :
    webhookHandler (fun _ => none) c6Endpoints "wh" 1024 c6FullChan "nope" []
        [] "t" = (.response 404, c6FullChan)
    ∧ webhookHandler (fun _ => none) c6Endpoints "wh" 1024 c6FullChan "hook" []
        [123] "t" = (.awaitingCapacity, c6FullChan) :=
  ⟨webhook_handler_status.2.1 (fun _ => none) c6Endpoints "wh" 1024 c6FullChan
    "nope" [] [] "t" rfl,
   webhook_handler_status.2.2.2.2.1 (fun _ => none) c6Endpoints "wh" 1024
    c6FullChan "hook" [] [123] "t" ⟨"/hook", "/default/events"⟩ rfl
    (by decide) rfl (by decide)⟩

/-! ## MQTT ingress event loop (source-mqtt/src/connector.rs)

The spawned event loop reacts to incoming publish packets: it looks up the
first matching mapping, converts the packet to a `SourceRecord` and sends it
into the channel; a packet matching no mapping is only logged and dropped.
The loop's effect on the outgoing record queue is modelled as a fold. -/

structure MqttMapping where
  mqttTopic : String
  danubeTopic : String

structure MqttPublish where
  topic : String
  payloadBytes : List Nat
  qos : Nat
  retain : Bool
  dup : Bool

/-- `MqttSourceConnector::find_mapping_static`: first mapping whose pattern
equals or wildcard-matches the MQTT topic. -/
def findMapping (mqttTopic : String) (mappings : List MqttMapping) :
    Option MqttMapping :=
  mappings.find? (fun m =>
    m.mqttTopic = mqttTopic || topicMatches m.mqttTopic mqttTopic)

/-- `MqttSourceConnector::publish_to_record_static`: decode the payload
(JSON or base64 envelope) and attach MQTT metadata attributes and the
routing key when enabled. -/
def publishToRecord (tryParseJson : List Nat → Option Json)
    (pub : MqttPublish) (mapping : MqttMapping) (includeMetadata : Bool) :
    SourceRecord :=
  let payloadValue := decodeOrEnvelope tryParseJson pub.payloadBytes
  let record : SourceRecord :=
    { topic := mapping.danubeTopic, payload := payloadValue,
      key := none, attributes := [] }
  if includeMetadata then
    let record := record.withAttribute "mqtt.topic" pub.topic
    let record := record.withAttribute "mqtt.qos" (toString pub.qos)
    let record := record.withAttribute "mqtt.retain" (toString pub.retain)
    let record := record.withAttribute "mqtt.dup" (toString pub.dup)
    let record := record.withAttribute "source" "mqtt"
    record.withKey pub.topic
  else record

/-- One publish event in the event loop: enqueue the converted record when a
mapping matches, otherwise drop the event (a log warning only). -/
def handlePublish (tryParseJson : List Nat → Option Json)
    (mappings : List MqttMapping) (includeMetadata : Bool)
    (queue : List SourceRecord) (pub : MqttPublish) : List SourceRecord :=
  match findMapping pub.topic mappings with
  | some mapping =>
    queue ++ [publishToRecord tryParseJson pub mapping includeMetadata]
  | none => queue

/-- The event loop over a sequence of publish events. -/
def handlePublishes (tryParseJson : List Nat → Option Json)
    (mappings : List MqttMapping) (includeMetadata : Bool)
    (queue : List SourceRecord) (pubs : List MqttPublish) : List SourceRecord :=
  pubs.foldl (handlePublish tryParseJson mappings includeMetadata) queue

/-- C10: a publish event whose topic matches no configured mapping is
discarded — the record queue is unchanged and no error arises (the step
function is total) — and the loop processes the remaining events exactly as
if the unmatched event had never arrived. -/
theorem mqtt_unmatched_event_dropped :
    ∀ (tryParseJson : List Nat → Option Json) (mappings : List MqttMapping)
      (includeMetadata : Bool) (queue : List SourceRecord) (pub : MqttPublish)
      (rest : List MqttPublish),
      findMapping pub.topic mappings = none →
      handlePublish tryParseJson mappings includeMetadata queue pub = queue
      ∧ handlePublishes tryParseJson mappings includeMetadata queue (pub :: rest)
          = handlePublishes tryParseJson mappings includeMetadata queue rest := by
  intro tryParseJson mappings includeMetadata queue pub rest hfind
  have hstep : handlePublish tryParseJson mappings includeMetadata queue pub
      = queue := by
    simp [handlePublish, hfind]
  exact ⟨hstep, by simp [handlePublishes, hstep]⟩

/-- Witness for C10: a publish on `devices/x` against mappings for
`sensors/+/data` and `sensors/#` is dropped, and the following matching
event is still processed. -/
theorem mqtt_unmatched_event_dropped_witness :
    handlePublish (fun _ => none)
        [⟨"sensors/+/data", "/d/data"⟩, ⟨"sensors/#", "/d/all"⟩] true []
        ⟨"devices/x", [1], 0, false, false⟩ = []
    ∧ handlePublishes (fun _ => none)
        [⟨"sensors/+/data", "/d/data"⟩, ⟨"sensors/#", "/d/all"⟩] true []
        [⟨"devices/x", [1], 0, false, false⟩, ⟨"sensors/a/data", [2], 0, false, false⟩]
      = handlePublishes (fun _ => none)
        [⟨"sensors/+/data", "/d/data"⟩, ⟨"sensors/#", "/d/all"⟩] true []
        [⟨"sensors/a/data", [2], 0, false, false⟩] :=
  mqtt_unmatched_event_dropped (fun _ => none)
    [⟨"sensors/+/data", "/d/data"⟩, ⟨"sensors/#", "/d/all"⟩] true []
    ⟨"devices/x", [1], 0, false, false⟩
    [⟨"sensors/a/data", [2], 0, false, false⟩] rfl

/-! ## Delta Lake field projection (sink-deltalake/src/record.rs)

`build_array_for_field` projects each record's payload onto one schema
column.  A narrow integer column is filled by extracting an `i64`/`u64` and
casting with Rust's `as` operator, which truncates (two's complement for
signed widths, modulo for unsigned) — there is no range check.  Floats are
abstracted by value-free cells; `chrono`'s RFC-3339 parser is the
`parseRfc3339` parameter. -/

/-- Rust `as` to a signed `w`-bit integer: keep the low `w` bits, read as
two's complement. -/
def wrapSigned (w : Nat) (i : Int) : Int :=
  if i % (2 ^ w : Int) < 2 ^ (w - 1) then i % 2 ^ w else i % 2 ^ w - 2 ^ w

/-- Rust `as` to an unsigned `w`-bit integer: keep the low `w` bits. -/
def wrapUnsigned (w n : Nat) : Nat :=
  n % 2 ^ w

/-- `extract_string_field`. -/
def extractStringField (value : Json) (fieldName : String) : Option String :=
  match value with
  | .obj fields => (objGet fields fieldName).bind Json.asStr
  | _ => none

/-- `extract_int_field` (`as_i64`). -/
def extractIntField (value : Json) (fieldName : String) : Option Int :=
  match value with
  | .obj fields => (objGet fields fieldName).bind Json.asI64
  | _ => none

/-- `extract_uint_field` (`as_u64`). -/
def extractUintField (value : Json) (fieldName : String) : Option Nat :=
  match value with
  | .obj fields => (objGet fields fieldName).bind Json.asU64
  | _ => none

/-- `extract_float_field` (`as_f64`, which succeeds on every number; the
float's value is abstracted). -/
def extractFloatField (value : Json) (fieldName : String) : Option Unit :=
  match value with
  | .obj fields => (objGet fields fieldName).bind (fun v =>
      match v with | .num _ => some () | _ => none)
  | _ => none

/-- `extract_bool_field`. -/
def extractBoolField (value : Json) (fieldName : String) : Option Bool :=
  match value with
  | .obj fields => (objGet fields fieldName).bind Json.asBool
  | _ => none

/-- `extract_timestamp_field`: integer Unix seconds scaled to microseconds,
else an RFC-3339 string handed to `chrono`. -/
def extractTimestampField (parseRfc3339 : String → Option Int) (value : Json)
    (fieldName : String) : Option Int :=
  match value with
  | .obj fields =>
    match objGet fields fieldName with
    | some fieldValue =>
      match fieldValue.asI64 with
      | some timestampSecs => some (timestampSecs * 1000000)
      | none =>
        match fieldValue.asStr with
        | some timestampStr => parseRfc3339 timestampStr
        | none => none
    | none => none
  | _ => none

/-- One Arrow column as `build_array_for_field` produces it. -/
inductive ArrowArray where
  | utf8 (cells : List (Option String))
  | int8 (cells : List (Option Int))
  | int16 (cells : List (Option Int))
  | int32 (cells : List (Option Int))
  | int64 (cells : List (Option Int))
  | uint8 (cells : List (Option Nat))
  | uint16 (cells : List (Option Nat))
  | uint32 (cells : List (Option Nat))
  | uint64 (cells : List (Option Nat))
  | float32 (cells : List (Option Unit))
  | float64 (cells : List (Option Unit))
  | boolean (cells : List (Option Bool))
  | timestampMicros (cells : List (Option Int))
deriving DecidableEq, Repr

/-- `build_array_for_field`: one arm per supported type string; narrow
integer widths go through the truncating `as` casts. -/
def buildArrayForField (parseRfc3339 : String → Option Int)
    (fieldName dataType : String) (values : List Json) :
    Except ConnError ArrowArray :=
  match dataType with
  | "Utf8" => .ok (.utf8 (values.map (fun v => extractStringField v fieldName)))
  | "Int8" => .ok (.int8 (values.map (fun v =>
      (extractIntField v fieldName).map (wrapSigned 8))))
  | "Int16" => .ok (.int16 (values.map (fun v =>
      (extractIntField v fieldName).map (wrapSigned 16))))
  | "Int32" => .ok (.int32 (values.map (fun v =>
      (extractIntField v fieldName).map (wrapSigned 32))))
  | "Int64" => .ok (.int64 (values.map (fun v => extractIntField v fieldName)))
  | "UInt8" => .ok (.uint8 (values.map (fun v =>
      (extractUintField v fieldName).map (wrapUnsigned 8))))
  | "UInt16" => .ok (.uint16 (values.map (fun v =>
      (extractUintField v fieldName).map (wrapUnsigned 16))))
  | "UInt32" => .ok (.uint32 (values.map (fun v =>
      (extractUintField v fieldName).map (wrapUnsigned 32))))
  | "UInt64" => .ok (.uint64 (values.map (fun v => extractUintField v fieldName)))
  | "Float32" => .ok (.float32 (values.map (fun v => extractFloatField v fieldName)))
  | "Float64" => .ok (.float64 (values.map (fun v => extractFloatField v fieldName)))
  | "Boolean" => .ok (.boolean (values.map (fun v => extractBoolField v fieldName)))
  | "Timestamp" => .ok (.timestampMicros (values.map (fun v =>
      extractTimestampField parseRfc3339 v fieldName)))
  | _ => .error (.fatal ("Unsupported data type for field '" ++ fieldName ++
      "': " ++ dataType))

/-- C7 counterexample: the integer 300 lies outside `Int8`'s range, yet the
projection succeeds and stores the truncated value 44 (`300 as i8`) — a
silent truncation, not an invalid-data error. -/
theorem delta_int8_truncation_counterexample :
    buildArrayForField (fun _ => none) "x" "Int8"
        [Json.obj [("x", Json.num (JNum.int 300))]]
      = .ok (.int8 [some 44])
    ∧ (44 : Int) ≠ 300 := by
  exact ⟨rfl, by decide⟩

lemma wrapSigned_spec (w : Nat) (hw : 0 < w) (i : Int) :
    wrapSigned w i % (2 ^ w : Int) = i % 2 ^ w
    ∧ -(2 ^ (w - 1) : Int) ≤ wrapSigned w i
    ∧ wrapSigned w i < 2 ^ (w - 1)
    ∧ (wrapSigned w i = i ↔ -(2 ^ (w - 1) : Int) ≤ i ∧ i < 2 ^ (w - 1)) := by
  have h2pos : (0 : Int) < 2 ^ w := by positivity
  have hhalfpos : (0 : Int) < 2 ^ (w - 1) := by positivity
  have hsplit : (2 : Int) ^ w = 2 ^ (w - 1) + 2 ^ (w - 1) := by
    conv_lhs => rw [show w = (w - 1) + 1 by omega]
    rw [pow_succ]
    ring
  have hm0 : 0 ≤ i % 2 ^ w := Int.emod_nonneg i h2pos.ne'
  have hmlt : i % 2 ^ w < 2 ^ w := Int.emod_lt_of_pos i h2pos
  have hemod : i % 2 ^ w % 2 ^ w = i % 2 ^ w := Int.emod_emod_of_dvd i dvd_rfl
  have hrepneg : i < 0 → -(2 ^ (w - 1) : Int) ≤ i → i % 2 ^ w = i + 2 ^ w := by
    intro hineg hilo
    have h1 : (i + 2 ^ w) % 2 ^ w = i % 2 ^ w := by
      have hmul := Int.add_mul_emod_self_left (a := i) (b := 2 ^ w) (c := 1)
      rwa [mul_one] at hmul
    rw [← h1]
    exact Int.emod_eq_of_lt (by omega) (by omega)
  by_cases hc : i % 2 ^ w < 2 ^ (w - 1)
  · rw [wrapSigned, if_pos hc]
    refine ⟨hemod, by omega, hc, ?_⟩
    constructor
    · intro h
      refine ⟨by omega, ?_⟩
      rw [← h]; exact hc
    · rintro ⟨hlo, hhi⟩
      by_cases hi0 : 0 ≤ i
      · exact Int.emod_eq_of_lt hi0 (by omega)
      · exfalso
        have := hrepneg (by omega) hlo
        omega
  · rw [wrapSigned, if_neg hc]
    push_neg at hc
    have hmod : (i % 2 ^ w - 2 ^ w) % 2 ^ w = i % 2 ^ w := by
      rw [Int.sub_emod, Int.emod_self, sub_zero, hemod, hemod]
    refine ⟨hmod, by omega, by omega, ?_⟩
    constructor
    · intro h
      exact ⟨by omega, by omega⟩
    · rintro ⟨hlo, hhi⟩
      by_cases hi0 : 0 ≤ i
      · exfalso
        have : i % 2 ^ w = i := Int.emod_eq_of_lt hi0 (by omega)
        omega
      · have := hrepneg (by omega) hlo
        omega

/-- C7 (amended): integer JSON numbers are coerced to the declared signed or
unsigned width with Rust's `as` casts, which truncate with NO range check:
the stored cell is the value reduced to the width's range, congruent to the
original modulo `2^w`, and equals the original exactly when the original
already fits the width; an out-of-range integer is silently wrapped (300 as
Int8 stores 44) instead of raising an invalid-data error. -/
theorem delta_int_coercion_wraps :
    (∀ (parse : String → Option Int) (name : String) (i : Int),
      -(2 ^ 63) ≤ i → i < 2 ^ 63 →
      buildArrayForField parse name "Int8" [Json.obj [(name, Json.num (JNum.int i))]]
        = .ok (.int8 [some (wrapSigned 8 i)])
      ∧ buildArrayForField parse name "Int16" [Json.obj [(name, Json.num (JNum.int i))]]
        = .ok (.int16 [some (wrapSigned 16 i)])
      ∧ buildArrayForField parse name "Int32" [Json.obj [(name, Json.num (JNum.int i))]]
        = .ok (.int32 [some (wrapSigned 32 i)])
      ∧ buildArrayForField parse name "Int64" [Json.obj [(name, Json.num (JNum.int i))]]
        = .ok (.int64 [some i]))
    ∧ (∀ (parse : String → Option Int) (name : String) (i : Int),
        0 ≤ i → i < 2 ^ 64 →
        buildArrayForField parse name "UInt8" [Json.obj [(name, Json.num (JNum.int i))]]
          = .ok (.uint8 [some (wrapUnsigned 8 i.toNat)])
        ∧ buildArrayForField parse name "UInt16" [Json.obj [(name, Json.num (JNum.int i))]]
          = .ok (.uint16 [some (wrapUnsigned 16 i.toNat)])
        ∧ buildArrayForField parse name "UInt32" [Json.obj [(name, Json.num (JNum.int i))]]
          = .ok (.uint32 [some (wrapUnsigned 32 i.toNat)])
        ∧ buildArrayForField parse name "UInt64" [Json.obj [(name, Json.num (JNum.int i))]]
          = .ok (.uint64 [some i.toNat]))
    ∧ (∀ (w : Nat), 0 < w → ∀ i : Int,
        wrapSigned w i % (2 ^ w : Int) = i % 2 ^ w
        ∧ -(2 ^ (w - 1) : Int) ≤ wrapSigned w i ∧ wrapSigned w i < 2 ^ (w - 1)
        ∧ (wrapSigned w i = i ↔ -(2 ^ (w - 1) : Int) ≤ i ∧ i < 2 ^ (w - 1)))
    ∧ (∀ (w n : Nat), wrapUnsigned w n % 2 ^ w = n % 2 ^ w
        ∧ wrapUnsigned w n < 2 ^ w
        ∧ (wrapUnsigned w n = n ↔ n < 2 ^ w)) := by
  refine ⟨?_, ?_, fun w hw i => wrapSigned_spec w hw i, ?_⟩
  · intro parse name i hlo hhi
    have hget : objGet [(name, Json.num (JNum.int i))] name
        = some (Json.num (JNum.int i)) := by simp [objGet]
    have hlo' : -(9223372036854775808 : Int) ≤ i := by
      norm_num at hlo; exact hlo
    have hhi' : i < (9223372036854775808 : Int) := by
      norm_num at hhi; exact hhi
    refine ⟨?_, ?_, ?_, ?_⟩ <;>
      simp [buildArrayForField, extractIntField, hget, Json.asI64, hlo', hhi']
  · intro parse name i h0 hhi
    have hget : objGet [(name, Json.num (JNum.int i))] name
        = some (Json.num (JNum.int i)) := by simp [objGet]
    have hhi' : i < (18446744073709551616 : Int) := by
      norm_num at hhi; exact hhi
    refine ⟨?_, ?_, ?_, ?_⟩ <;>
      simp [buildArrayForField, extractUintField, hget, Json.asU64, h0, hhi']
  · intro w n
    have hpos : 0 < 2 ^ w := Nat.pos_pow_of_pos w (by omega)
    refine ⟨Nat.mod_mod_of_dvd n dvd_rfl, Nat.mod_lt n hpos, ?_⟩
    constructor
    · intro h
      rw [wrapUnsigned] at h
      have hlt := Nat.mod_lt n hpos
      omega
    · intro h
      simpa [wrapUnsigned] using Nat.mod_eq_of_lt h

/-- Witness for the amended C7 theorem at the out-of-range integer 300. -/
theorem delta_int_coercion_wraps_witness :
    buildArrayForField (fun _ => none) "x" "Int8"
        [Json.obj [("x", Json.num (JNum.int 300))]]
      = .ok (.int8 [some (wrapSigned 8 300)])
    ∧ buildArrayForField (fun _ => none) "x" "UInt8"
        [Json.obj [("x", Json.num (JNum.int 300))]]
      = .ok (.uint8 [some (wrapUnsigned 8 (Int.toNat 300))])
    ∧ (wrapSigned 8 300 % (2 ^ 8 : Int) = 300 % 2 ^ 8
       ∧ -(2 ^ (8 - 1) : Int) ≤ wrapSigned 8 300 ∧ wrapSigned 8 300 < 2 ^ (8 - 1)
       ∧ (wrapSigned 8 300 = 300 ↔
           -(2 ^ (8 - 1) : Int) ≤ 300 ∧ (300 : Int) < 2 ^ (8 - 1)))
    ∧ (wrapUnsigned 8 44 % 2 ^ 8 = 44 % 2 ^ 8 ∧ wrapUnsigned 8 44 < 2 ^ 8
       ∧ (wrapUnsigned 8 44 = 44 ↔ 44 < 2 ^ 8)) :=
  ⟨(delta_int_coercion_wraps.1 (fun _ => none) "x" 300 (by decide) (by decide)).1,
   (delta_int_coercion_wraps.2.1 (fun _ => none) "x" 300 (by decide) (by decide)).1,
   delta_int_coercion_wraps.2.2.1 8 (by decide) 300,
   delta_int_coercion_wraps.2.2.2 8 44⟩

/-! ## Transformer determinism (sink-deltalake/src/record.rs,
source-webhook/src/connector.rs)

Both cited transformers stamp a wall-clock reading into their output:
`build_metadata_array` serializes `timestamp_iso: Utc::now().to_rfc3339()`
into the `_danube_metadata` JSON column, and `create_source_record` attaches
`webhook.timestamp`.  The clock is an explicit parameter of the embedding. -/

def hexDigit (n : Nat) : Char :=
  "0123456789abcdef".data.getD n '0'

/-- serde_json string escaping: quote, backslash and control characters. -/
def jsonEscapeChar (c : Char) : List Char :=
  if c = '"' then ['\\', '"']
  else if c = '\\' then ['\\', '\\']
  else if c = '\x08' then ['\\', 'b']
  else if c = '\x0c' then ['\\', 'f']
  else if c = '\n' then ['\\', 'n']
  else if c = '\r' then ['\\', 'r']
  else if c = '\t' then ['\\', 't']
  else if c.toNat < 32 then
    ['\\', 'u', '0', '0', hexDigit (c.toNat / 16), hexDigit (c.toNat % 16)]
  else [c]

def jsonEscapeString (s : String) : String :=
  "\"" ++ String.mk (s.data.map jsonEscapeChar).flatten ++ "\""

/-- The `_danube_metadata` JSON line of `build_metadata_array` for one
record: serde_json serializes its (BTree) map with the keys in sorted order
`offset, partition, timestamp, timestamp_iso, topic`; `timestamp_iso` is the
wall-clock reading. -/
def metadataString (r : SinkRecord) (nowIso : String) : String :=
  "\x7b\"offset\":" ++ toString r.offset ++
  ",\"partition\":" ++ jsonEscapeString (r.partition.getD "none") ++
  ",\"timestamp\":" ++ toString r.publishTime ++
  ",\"timestamp_iso\":" ++ jsonEscapeString nowIso ++
  ",\"topic\":" ++ jsonEscapeString r.topic ++ "\x7d"

/-- `build_metadata_array` over a batch (the clock reading is per call;
in the source it is even re-sampled per record). -/
def buildMetadataArray (records : List SinkRecord) (nowIso : String) :
    List String :=
  records.map (fun r => metadataString r nowIso)

/-- The clock-independent part of the metadata line before the
`timestamp_iso` value. -/
def metaPrefix (r : SinkRecord) : String :=
  "\x7b\"offset\":" ++ toString r.offset ++
  ",\"partition\":" ++ jsonEscapeString (r.partition.getD "none") ++
  ",\"timestamp\":" ++ toString r.publishTime ++
  ",\"timestamp_iso\":"

/-- The clock-independent part of the metadata line after the
`timestamp_iso` value. -/
def metaSuffix (r : SinkRecord) : String :=
  ",\"topic\":" ++ jsonEscapeString r.topic ++ "\x7d"

/-- Drop one attribute key from a source record. -/
def eraseAttr (r : SourceRecord) (k : String) : SourceRecord :=
  { r with attributes := r.attributes.filter (fun kv => ¬ kv.1 = k) }

/-- C8 counterexample: the same webhook body transformed at two clock
readings yields records differing in the `webhook.timestamp` attribute, and
the same sink record yields two different metadata strings — the output is
not a function of the record and mapping alone, so applying the transformer
twice is not byte-identical. -/
theorem transformer_not_clock_free_counterexample :
    createSourceRecord (fun _ => none) ⟨"/hook", "/d/e"⟩ "wh" "/hook" [255] []
        none "2024-01-01T00:00:00+00:00"
      ≠ createSourceRecord (fun _ => none) ⟨"/hook", "/d/e"⟩ "wh" "/hook" [255] []
        none "2024-01-01T00:00:01+00:00"
    ∧ metadataString ⟨"/t", 1, 2, "p", [], none, Json.null⟩
        "2024-01-01T00:00:00+00:00"
      ≠ metadataString ⟨"/t", 1, 2, "p", [], none, Json.null⟩
        "2024-01-01T00:00:01+00:00" :=
  ⟨fun h => absurd (congrArg SourceRecord.attributes h) (by decide), by decide⟩

/-- C8 (amended): each payload transformer is a deterministic function of
the record, the mapping and the current wall-clock reading; outputs of two
applications can differ only in the injected timestamp: erasing
`webhook.timestamp` makes the webhook records of any two clock readings
equal, and the Delta Lake metadata line factors into clock-independent parts
around the escaped `timestamp_iso` value. -/
theorem transformer_deterministic_up_to_clock :
    (∀ (parse : List Nat → Option Json) (cfg : EndpointConfig)
       (name path : String) (body : List Nat)
       (headers : List (String × String)) (ip : Option String) (t₁ t₂ : String),
      eraseAttr (createSourceRecord parse cfg name path body headers ip t₁)
          "webhook.timestamp"
        = eraseAttr (createSourceRecord parse cfg name path body headers ip t₂)
          "webhook.timestamp")
    ∧ (∀ (r : SinkRecord) (t : String),
        metadataString r t = metaPrefix r ++ jsonEscapeString t ++ metaSuffix r)
    ∧ (∀ (records : List SinkRecord) (t : String),
        buildMetadataArray records t
          = records.map (fun r => metaPrefix r ++ jsonEscapeString t ++ metaSuffix r)) := by
  refine ⟨?_, ?_, ?_⟩
  · intro parse cfg name path body headers ip t₁ t₂
    rcases ip with _ | ip <;>
      rcases hua : alGet headers "user-agent" with _ | ua <;>
        rcases hct : alGet headers "content-type" with _ | ct <;>
          simp [createSourceRecord, eraseAttr, SourceRecord.withAttribute,
            alInsert, hua, hct]
  · intro r t
    simp [metadataString, metaPrefix, metaSuffix, String.append_assoc]
  · intro records t
    have hms : ∀ (r : SinkRecord) (t : String),
        metadataString r t = metaPrefix r ++ jsonEscapeString t ++ metaSuffix r := by
      intro r t
      simp [metadataString, metaPrefix, metaSuffix, String.append_assoc]
    simp only [buildMetadataArray]
    exact List.map_congr_left (fun r _ => hms r t)

/-- Witness for the amended C8 theorem at concrete records and two clock
readings. -/
theorem transformer_deterministic_up_to_clock_witness :
    eraseAttr (createSourceRecord (fun _ => none) ⟨"/hook", "/d/e"⟩ "wh" "/hook"
        [255] [] none "2024-01-01T00:00:00+00:00") "webhook.timestamp"
      = eraseAttr (createSourceRecord (fun _ => none) ⟨"/hook", "/d/e"⟩ "wh" "/hook"
        [255] [] none "2024-01-01T00:00:01+00:00") "webhook.timestamp"
    ∧ metadataString ⟨"/t", 1, 2, "p", [], none, Json.null⟩ "2024"
      = metaPrefix ⟨"/t", 1, 2, "p", [], none, Json.null⟩
        ++ jsonEscapeString "2024"
        ++ metaSuffix ⟨"/t", 1, 2, "p", [], none, Json.null⟩ :=
  ⟨transformer_deterministic_up_to_clock.1 (fun _ => none) ⟨"/hook", "/d/e"⟩
    "wh" "/hook" [255] [] none "2024-01-01T00:00:00+00:00"
    "2024-01-01T00:00:01+00:00",
   transformer_deterministic_up_to_clock.2.1
    ⟨"/t", 1, 2, "p", [], none, Json.null⟩ "2024"⟩

end DanubeConnectors
